import Mathlib

/-!
# Verification of the py-mockoon transaction-matching and log-pipeline core

Shallow embedding of the `mockoon` Python package (`src/mockoon/`):
the domain-model parsers (`resources/`), the log stream processor and
event-wait mechanism (`server.py`), and the transaction assertion engine
(`server.py` / `assertion.py`, which contain the same assertion code).

Python dicts are embedded as insertion-ordered association lists with
unique keys; dict assignment updates the value in place for an existing
key and appends otherwise, as in CPython.  Failures (raised exceptions)
are embedded with `Except PyErr`.
-/

set_option maxHeartbeats 1000000

namespace Mockoon

/-- Python dict membership test (`k in d`) on the association-list embedding. -/
def dictContains : List (String × α) → String → Bool
  | [], _ => false
  | (k', _) :: rest, k => if k' = k then true else dictContains rest k

/-- Python dict indexing (`d[k]`) on the association-list embedding:
first (unique) entry with the key. -/
def dictLookup : List (String × α) → String → Option α
  | [], _ => none
  | (k', v) :: rest, k => if k' = k then some v else dictLookup rest k

/-- Python dict assignment (`d[k] = v`): replace the value in place when the
key is present, append a new entry otherwise. -/
def dictInsert : List (String × α) → String → α → List (String × α)
  | [], k, v => [(k, v)]
  | (k', v') :: rest, k, v =>
      if k' = k then (k, v) :: rest else (k', v') :: dictInsert rest k v

/-- Python `del d[k]` on the association-list embedding. -/
def dictRemove : List (String × α) → String → List (String × α)
  | [], _ => []
  | (k', v') :: rest, k =>
      if k' = k then rest else (k', v') :: dictRemove rest k

/-- One `{key, value}` record of the raw log's header/param/query lists
(`key_value.py` input items).  `none` embeds a dict in which the
corresponding Python key is absent. -/
structure KVItem where
  key : Option String
  value : Option String
deriving DecidableEq, Repr

/-- `key_value.list_of_dicts_to_dict`: fold a sequence of `{key, value}`
records into a dict, skipping records lacking either key. -/
def list_of_dicts_to_dict (input_list : List KVItem) : List (String × String) :=
  input_list.foldl
    (fun output_dict item =>
      match item.key, item.value with
      | some k, some v => dictInsert output_dict k v
      | _, _ => output_dict)
    []

/-- `resources/request.py` `Request` dataclass (dict fields as ordered
association lists). -/
structure Request where
  body : String
  headers : List (String × String)
  method : String
  params : List (String × String)
  query : String
  queryParams : List (String × String)
  route : String
  urlPath : String
deriving DecidableEq, Repr

/-- `resources/response.py` `Response` dataclass. -/
structure Response where
  body : String
  headers : List (String × String)
  statusCode : Int
  statusMessage : Option String
deriving DecidableEq, Repr

/-- `resources/transaction.py` `Transaction` dataclass. -/
structure Transaction where
  proxied : Bool
  request : Request
  response : Response
  routeResponseUUID : Option String
  routeUUID : Option String
deriving DecidableEq, Repr

/-- `resources/log_message.py` `LogMessage` dataclass. -/
structure LogMessage where
  level : String
  message : String
  timestamp : String
  mockName : Option String
  transaction : Option Transaction
deriving DecidableEq, Repr

/-- The value of one caller-supplied property in the
`assert_*_with_properties` kwargs: a `Request` field is either a string
or a dict. -/
inductive PropValue where
  | s (v : String)
  | d (v : List (String × String))
deriving DecidableEq, Repr

/-- The payload the source interpolates into an `AssertionError`'s message
(f-strings in `server.py`): `bare` is a plain `assert` statement with no
message; `callNotFound` is `f"Expected call not found: {request}"`
(expected only); `callsNotInOrder` is
`f"Expected calls {requests} not found in the same order in
{self.call_requests_list}"` (expected and actual); the `prop` forms are
the `_with_properties` analogues. -/
inductive AssertMsg where
  | bare
  | callNotFound (expected : Request)
  | callsNotInOrder (expected : List Request) (actual : List Request)
  | propCallNotFound (expected : List (String × PropValue))
  | propCallsNotInOrder (expected : List (List (String × PropValue)))
      (actual : List Request)
deriving DecidableEq, Repr

/-- Whether the assertion message carries both the expected and the actual
values (only the ordered `assert_has_calls` f-strings interpolate both). -/
def AssertMsg.carriesExpectedAndActual : AssertMsg → Bool
  | .callsNotInOrder _ _ => true
  | .propCallsNotInOrder _ _ => true
  | _ => false

/-- Python exceptions raised by the embedded code. -/
inductive PyErr where
  | jsonDecodeError
  | keyError (key : String)
  | typeError
  | indexError
  | assertFailed (msg : AssertMsg)
deriving DecidableEq, Repr

/-- A parsed JSON value, as produced by `json.loads` on one log line
(objects keep the insertion-ordered unique-key dict embedding). -/
inductive Json where
  | null
  | bool (b : Bool)
  | num (n : Int)
  | str (s : String)
  | arr (elems : List Json)
  | obj (fields : List (String × Json))

/-- `log_entry[k]` for a required string-valued key: `KeyError` when the key
is absent, `TypeError` when the value is not a string (the dataclass field
is annotated `str`). -/
def getStr (fields : List (String × Json)) (k : String) : Except PyErr String :=
  match dictLookup fields k with
  | some (.str s) => .ok s
  | some _ => .error .typeError
  | none => .error (.keyError k)

/-- `log_entry[k]` for a required int-valued key. -/
def getInt (fields : List (String × Json)) (k : String) : Except PyErr Int :=
  match dictLookup fields k with
  | some (.num n) => .ok n
  | some _ => .error .typeError
  | none => .error (.keyError k)

/-- `log_entry[k]` for a required bool-valued key. -/
def getBool (fields : List (String × Json)) (k : String) : Except PyErr Bool :=
  match dictLookup fields k with
  | some (.bool b) => .ok b
  | some _ => .error .typeError
  | none => .error (.keyError k)

/-- `log_entry[k]` for a key holding a string or `null` (the `str | None`
dataclass fields). -/
def getOptStr (fields : List (String × Json)) (k : String) :
    Except PyErr (Option String) :=
  match dictLookup fields k with
  | some (.str s) => .ok (some s)
  | some .null => .ok none
  | some _ => .error .typeError
  | none => .error (.keyError k)

/-- Read one raw `{key, value}` record into a `KVItem` (`"key" in item`
tests become `Option`s; values are typed `str` per the source annotation
`list[dict[str, str]]`). -/
def readKVItem (j : Json) : Except PyErr KVItem :=
  match j with
  | .obj fields =>
      match dictLookup fields "key", dictLookup fields "value" with
      | some (.str k), some (.str v) => .ok ⟨some k, some v⟩
      | some (.str k), none => .ok ⟨some k, none⟩
      | none, some (.str v) => .ok ⟨none, some v⟩
      | none, none => .ok ⟨none, none⟩
      | _, _ => .error .typeError
  | _ => .error .typeError

/-- Read a raw header/param/query list (`log_entry["headers"]` etc.) into
its `KVItem` sequence. -/
def readKVList (j : Json) : Except PyErr (List KVItem) :=
  match j with
  | .arr elems => elems.mapM readKVItem
  | _ => .error .typeError

/-- `Request.from_log_entry`: pop `headers` / `params` / `queryParams`,
fold each with `list_of_dicts_to_dict`, and build the dataclass from the
remaining keys (`cls(**log_entry)`: a missing required key or a leftover
unexpected key raises). -/
def Request.from_log_entry (j : Json) : Except PyErr Request :=
  match j with
  | .obj fields => do
      let headersList ← match dictLookup fields "headers" with
        | some v => readKVList v
        | none => .error (.keyError "headers")
      let fields := dictRemove fields "headers"
      let paramsList ← match dictLookup fields "params" with
        | some v => readKVList v
        | none => .error (.keyError "params")
      let fields := dictRemove fields "params"
      let queryParamsList ← match dictLookup fields "queryParams" with
        | some v => readKVList v
        | none => .error (.keyError "queryParams")
      let fields := dictRemove fields "queryParams"
      let body ← getStr fields "body"
      let method ← getStr fields "method"
      let query ← getStr fields "query"
      let route ← getStr fields "route"
      let urlPath ← getStr fields "urlPath"
      if fields.all (fun p =>
          p.1 = "body" ∨ p.1 = "method" ∨ p.1 = "query" ∨ p.1 = "route" ∨
          p.1 = "urlPath") then
        .ok ⟨body, list_of_dicts_to_dict headersList, method,
             list_of_dicts_to_dict paramsList, query,
             list_of_dicts_to_dict queryParamsList, route, urlPath⟩
      else
        .error .typeError
  | _ => .error .typeError

/-- `Response.from_log_entry`: pop and fold `headers`, then
`cls(headers=headers, **log_entry)`; `statusMessage` defaults to `None`
when absent. -/
def Response.from_log_entry (j : Json) : Except PyErr Response :=
  match j with
  | .obj fields => do
      let headersList ← match dictLookup fields "headers" with
        | some v => readKVList v
        | none => .error (.keyError "headers")
      let fields := dictRemove fields "headers"
      let body ← getStr fields "body"
      let statusCode ← getInt fields "statusCode"
      let statusMessage ← if dictContains fields "statusMessage" then
          getOptStr fields "statusMessage"
        else
          pure none
      if fields.all (fun p =>
          p.1 = "body" ∨ p.1 = "statusCode" ∨ p.1 = "statusMessage") then
        .ok ⟨body, list_of_dicts_to_dict headersList, statusCode, statusMessage⟩
      else
        .error .typeError
  | _ => .error .typeError

/-- `Transaction.from_log_entry`: pop and parse `request` / `response`,
synthesize `null` for `routeResponseUUID` / `routeUUID` when the key is
absent, then `cls(request=..., response=..., **log_entry)`. -/
def Transaction.from_log_entry (j : Json) : Except PyErr Transaction :=
  match j with
  | .obj fields => do
      let requestJson ← match dictLookup fields "request" with
        | some v => pure v
        | none => .error (.keyError "request")
      let request ← Request.from_log_entry requestJson
      let fields := dictRemove fields "request"
      let responseJson ← match dictLookup fields "response" with
        | some v => pure v
        | none => .error (.keyError "response")
      let response ← Response.from_log_entry responseJson
      let fields := dictRemove fields "response"
      let fields := if dictContains fields "routeResponseUUID" then fields
        else dictInsert fields "routeResponseUUID" .null
      let fields := if dictContains fields "routeUUID" then fields
        else dictInsert fields "routeUUID" .null
      let proxied ← getBool fields "proxied"
      let routeResponseUUID ← getOptStr fields "routeResponseUUID"
      let routeUUID ← getOptStr fields "routeUUID"
      if fields.all (fun p =>
          p.1 = "proxied" ∨ p.1 = "routeResponseUUID" ∨ p.1 = "routeUUID") then
        .ok ⟨proxied, request, response, routeResponseUUID, routeUUID⟩
      else
        .error .typeError
  | _ => .error .typeError

/-- `LogMessage.from_log_entry`: parse a nested `transaction` sub-record
only when the key is present, synthesize `null` for a missing `mockName`,
then `cls(transaction=..., **log_entry)`. -/
def LogMessage.from_log_entry (j : Json) : Except PyErr LogMessage :=
  match j with
  | .obj fields => do
      let transaction ← if dictContains fields "transaction" then
          match dictLookup fields "transaction" with
          | some v => do
              let t ← Transaction.from_log_entry v
              pure (some t)
          | none => .error (.keyError "transaction")
        else
          pure none
      let fields := dictRemove fields "transaction"
      let mockName ← if dictContains fields "mockName" then
          getOptStr fields "mockName"
        else
          pure none
      let level ← getStr fields "level"
      let message ← getStr fields "message"
      let timestamp ← getStr fields "timestamp"
      if fields.all (fun p =>
          p.1 = "level" ∨ p.1 = "message" ∨ p.1 = "timestamp" ∨
          p.1 = "mockName") then
        .ok ⟨level, message, timestamp, mockName, transaction⟩
      else
        .error .typeError
  | _ => .error .typeError

/-- The mutable server state touched by the log pipeline: `self.log_messages`
and the event queue (`self.event_queue`, its elements in FIFO order). -/
structure ServerState where
  log_messages : List LogMessage
  event_queue : List String
deriving DecidableEq, Repr

/-- The readiness marker in `process_line`
(`server_start_msg_prefix = "Server started on port "`). -/
def server_start_msg : String := "Server started on port "

/-- Python's substring test `needle in hay`. -/
def strContains (hay needle : String) : Bool :=
  decide (needle.data <:+: hay.data)

/-- A raw log line, represented by the outcome of `json.loads` on it
(`none` embeds a line that is not valid JSON, on which `json.loads`
raises `json.JSONDecodeError`); the JSON text parser itself is Python
standard library, external to the repository. -/
abbrev RawLine : Type := Option Json

/-- `process_line` inside `MockoonServer._stream_logs`: parse the line
(`json.loads` — its parse error is not caught), build the `LogMessage`,
enqueue the transaction's route when present, append to
`self.log_messages`, and enqueue `"ready"` when the message text contains
the readiness marker. -/
def process_line (st : ServerState) (line : RawLine) : Except PyErr ServerState := do
  let log_entry ← match line with
    | some j => pure j
    | none => .error .jsonDecodeError
  let log_message ← LogMessage.from_log_entry log_entry
  let queue := match log_message.transaction with
    | some transaction => st.event_queue ++ [transaction.request.route]
    | none => st.event_queue
  let logs := st.log_messages ++ [log_message]
  let queue := if strContains log_message.message server_start_msg then
      queue ++ ["ready"]
    else queue
  .ok ⟨logs, queue⟩

/-- The stdout streaming loop of `MockoonServer._stream_logs` (Docker
variant): `for line in log_source.stdout: if stop_event.is_set(): break;
process_line(line)`.  An exception raised by `process_line` has no
handler and propagates, terminating the background thread. -/
def stream_logs_stdout (st : ServerState) (stopSet : Bool) :
    List RawLine → Except PyErr ServerState
  | [] => .ok st
  | line :: rest =>
      if stopSet then .ok st
      else do
        let st' ← process_line st line
        stream_logs_stdout st' stopSet rest

/-- `LogFileEventHandler.initial_read`: process every line already present
in the log file (same unprotected `process_line` callback). -/
def initial_read (st : ServerState) :
    List RawLine → Except PyErr ServerState
  | [] => .ok st
  | line :: rest => do
      let st' ← process_line st line
      initial_read st' rest

/-- `MockoonServer.WAIT_TIMEOUT`. -/
def WAIT_TIMEOUT : Nat := 30

/-- `wait_timeout = self.WAIT_TIMEOUT if timeout is None else timeout`. -/
def resolveWaitTimeout : Option Nat → Nat
  | none => WAIT_TIMEOUT
  | some t => t

/-- One iteration of the `while True` loop of
`MockoonServer._wait_for_event`, as observed by the foreground thread:
whether `self.log_streaming_thread.is_alive()` held, the value of
`time()` at the timeout check, and what `self.event_queue.get(...)`
produced (`none` embeds the `Empty` exception from a timed-out get). -/
structure WaitTick where
  alive : Bool
  now : Nat
  dequeued : Option String
deriving DecidableEq, Repr

/-- Outcome of `_wait_for_event`: normal return, the timeout exception
(`"Server did not start within ... seconds."`), or the dead-thread
exception (`"Server thread is not alive."`). -/
inductive WaitOutcome where
  | matched
  | timedOut
  | threadDead
deriving DecidableEq, Repr

/-- The `while True` loop of `MockoonServer._wait_for_event` over the
sequence of iterations the environment provides: check thread liveness,
check `time() > timeout_time`, then dequeue; a non-matching dequeued
event is dropped and the loop continues.  `none` means the supplied
iteration trace ended before the loop returned or raised. -/
def wait_for_event_loop (expected : String) (timeout_time : Nat) :
    List WaitTick → Option WaitOutcome
  | [] => none
  | tick :: rest =>
      if tick.alive = false then some .threadDead
      else if timeout_time < tick.now then some .timedOut
      else if tick.dequeued = some expected then some .matched
      else wait_for_event_loop expected timeout_time rest

/-- `MockoonServer._wait_for_event`: resolve the timeout budget
(default `WAIT_TIMEOUT`), set `timeout_time = start_time + wait_timeout`,
and run the loop. -/
def wait_for_event (expected : String) (timeout : Option Nat)
    (start_time : Nat) (ticks : List WaitTick) : Option WaitOutcome :=
  wait_for_event_loop expected (start_time + resolveWaitTimeout timeout) ticks

/-- `MockoonServer.wait_for_active`: wait for the `"ready"` event. -/
def wait_for_active (start_time : Nat) (ticks : List WaitTick) :
    Option WaitOutcome :=
  wait_for_event "ready" none start_time ticks

/-- `MockoonServer.wait_for_route_hit`: wait for the event labelled
`f"/{route}"`. -/
def wait_for_route_hit (route : String) (start_time : Nat)
    (ticks : List WaitTick) : Option WaitOutcome :=
  wait_for_event ("/" ++ route) none start_time ticks

/-- `self.transactions`: the transactions of the log messages that carry
one, in arrival order. -/
def serverTransactions (log_messages : List LogMessage) : List Transaction :=
  log_messages.filterMap (fun log => log.transaction)

/-- `self.call_requests_list`: the requests of `self.transactions`. -/
def call_requests_list (log_messages : List LogMessage) : List Request :=
  (serverTransactions log_messages).map (fun t => t.request)

/-! ## Assertion engine

The assertion methods of `MockoonServer` (duplicated verbatim in
`MockoonTransactionAssertion`) read only `self.transactions` /
`self.call_requests_list`; each is embedded as a function of that
request history `H`, returning `.ok ()` where the Python method returns
normally and `.error` where it raises. -/

/-- `assert_not_called`: a bare `assert not self.called`. -/
def assert_not_called (H : List Request) : Except PyErr Unit :=
  if H.isEmpty then .ok () else .error (.assertFailed .bare)

/-- `assert_called`: a bare `assert self.called`. -/
def assert_called (H : List Request) : Except PyErr Unit :=
  if H.isEmpty then .error (.assertFailed .bare) else .ok ()

/-- `assert_called_once`: a bare `assert self.call_count == 1`. -/
def assert_called_once (H : List Request) : Except PyErr Unit :=
  if H.length = 1 then .ok () else .error (.assertFailed .bare)

/-- `_get_no_of_calls_with_request`: `self.call_requests_list.count(request)`. -/
def get_no_of_calls_with_request (H : List Request) (request : Request) : Nat :=
  H.count request

/-- `assert_called_once_with`: a bare
`assert self._get_no_of_calls_with_request(request) == 1`. -/
def assert_called_once_with (H : List Request) (request : Request) :
    Except PyErr Unit :=
  if get_no_of_calls_with_request H request = 1 then .ok ()
  else .error (.assertFailed .bare)

/-- `assert_called_with`: a bare
`assert self._get_no_of_calls_with_request(request) > 0`. -/
def assert_called_with (H : List Request) (request : Request) :
    Except PyErr Unit :=
  if get_no_of_calls_with_request H request > 0 then .ok ()
  else .error (.assertFailed .bare)

/-- The `any_order=True` branch of `assert_has_calls`: walk the expected
requests, removing each one's first structural match from a working copy
of the actual list (`list.remove`), raising on the first expected entry
with no remaining match. -/
def has_calls_any_order (remaining_requests : List Request) :
    List Request → Except PyErr Unit
  | [] => .ok ()
  | request :: rest =>
      if request ∈ remaining_requests then
        has_calls_any_order (remaining_requests.erase request) rest
      else
        .error (.assertFailed (.callNotFound request))

/-- The `any_order=False` cursor loop of `assert_has_calls`: scan the
actual requests left to right, comparing each against
`requests[matched_request_count]` (an out-of-range index raises
`IndexError`), advancing the cursor on a match and breaking once the
cursor reaches `len(requests)`; returns the final cursor value. -/
def has_calls_ordered_loop (requests : List Request) :
    List Request → Nat → Except PyErr Nat
  | [], matched_request_count => .ok matched_request_count
  | actual_request :: rest, matched_request_count =>
      match requests.get? matched_request_count with
      | none => .error .indexError
      | some expected =>
          if expected = actual_request then
            if matched_request_count + 1 = requests.length then
              .ok (matched_request_count + 1)
            else
              has_calls_ordered_loop requests rest (matched_request_count + 1)
          else
            has_calls_ordered_loop requests rest matched_request_count

/-- `assert_has_calls(requests, any_order=...)` over the request history. -/
def assert_has_calls (H : List Request) (requests : List Request)
    (any_order : Bool) : Except PyErr Unit :=
  if any_order then
    has_calls_any_order H requests
  else
    match has_calls_ordered_loop requests H 0 with
    | .error e => .error e
    | .ok matched_request_count =>
        if matched_request_count = requests.length then .ok ()
        else .error (.assertFailed (.callsNotInOrder requests H))

/-- `getattr(actual_request, key)` restricted to the `Request` dataclass
fields (`hasattr` is false for any other property name used here). -/
def requestGetattr (r : Request) (key : String) : Option PropValue :=
  if key = "body" then some (.s r.body)
  else if key = "headers" then some (.d r.headers)
  else if key = "method" then some (.s r.method)
  else if key = "params" then some (.d r.params)
  else if key = "query" then some (.s r.query)
  else if key = "queryParams" then some (.d r.queryParams)
  else if key = "route" then some (.s r.route)
  else if key = "urlPath" then some (.s r.urlPath)
  else none

/-- `_request_matches`: every supplied property key must exist on the
request and its value must compare equal. -/
def request_matches (actual_request : Request)
    (props : List (String × PropValue)) : Bool :=
  props.all (fun kv =>
    match requestGetattr actual_request kv.1 with
    | some v => v = kv.2
    | none => false)

/-- `_get_no_of_calls_with_properties`. -/
def get_no_of_calls_with_properties (H : List Request)
    (props : List (String × PropValue)) : Nat :=
  (H.filter (fun request => request_matches request props)).length

/-- `assert_called_once_with_properties`: a bare
`assert self._get_no_of_calls_with_properties(**kwargs) == 1`. -/
def assert_called_once_with_properties (H : List Request)
    (props : List (String × PropValue)) : Except PyErr Unit :=
  if get_no_of_calls_with_properties H props = 1 then .ok ()
  else .error (.assertFailed .bare)

/-- `assert_called_with_properties`: a bare
`assert self._get_no_of_calls_with_properties(**kwargs) > 0`. -/
def assert_called_with_properties (H : List Request)
    (props : List (String × PropValue)) : Except PyErr Unit :=
  if get_no_of_calls_with_properties H props > 0 then .ok ()
  else .error (.assertFailed .bare)

/-- The `any_order=True` branch of `assert_has_calls_with_properties`:
`next(...)` finds the first remaining request matching the property set,
which is then removed. -/
def has_calls_with_properties_any_order (remaining_requests : List Request) :
    List (List (String × PropValue)) → Except PyErr Unit
  | [] => .ok ()
  | call :: rest =>
      match remaining_requests.find? (fun request => request_matches request call) with
      | some matching_request =>
          has_calls_with_properties_any_order
            (remaining_requests.erase matching_request) rest
      | none => .error (.assertFailed (.propCallNotFound call))

/-- The `any_order=False` cursor loop of `assert_has_calls_with_properties`
(same shape as the exact-match cursor, with property matching). -/
def has_calls_with_properties_ordered_loop
    (calls : List (List (String × PropValue))) :
    List Request → Nat → Except PyErr Nat
  | [], matched_call_count => .ok matched_call_count
  | actual_request :: rest, matched_call_count =>
      match calls.get? matched_call_count with
      | none => .error .indexError
      | some call =>
          if request_matches actual_request call then
            if matched_call_count + 1 = calls.length then
              .ok (matched_call_count + 1)
            else
              has_calls_with_properties_ordered_loop calls rest
                (matched_call_count + 1)
          else
            has_calls_with_properties_ordered_loop calls rest matched_call_count

/-- `assert_has_calls_with_properties(calls, any_order=...)`. -/
def assert_has_calls_with_properties (H : List Request)
    (calls : List (List (String × PropValue))) (any_order : Bool) :
    Except PyErr Unit :=
  if any_order then
    has_calls_with_properties_any_order H calls
  else
    match has_calls_with_properties_ordered_loop calls H 0 with
    | .error e => .error e
    | .ok matched_call_count =>
        if matched_call_count = calls.length then .ok ()
        else .error (.assertFailed (.propCallsNotInOrder calls H))

/-! ## Dict lemmas -/

theorem dictLookup_dictInsert_self (d : List (String × α)) (k : String) (v : α) :
    dictLookup (dictInsert d k v) k = some v := by
  induction d with
  | nil => simp [dictInsert, dictLookup]
  | cons hd tl ih =>
      obtain ⟨k', v'⟩ := hd
      by_cases hk : k' = k
      · simp [dictInsert, dictLookup, hk]
      · simp [dictInsert, dictLookup, hk, ih]

theorem dictLookup_dictInsert_ne (d : List (String × α)) (k' k : String) (v : α)
    (h : k' ≠ k) : dictLookup (dictInsert d k' v) k = dictLookup d k := by
  induction d with
  | nil => simp [dictInsert, dictLookup, h]
  | cons hd tl ih =>
      obtain ⟨k₀, v₀⟩ := hd
      by_cases hk : k₀ = k'
      · subst hk
        simp [dictInsert, dictLookup, h]
      · by_cases hk2 : k₀ = k
        · simp [dictInsert, dictLookup, hk, hk2, Ne.symm h]
        · simp [dictInsert, dictLookup, hk, hk2, ih]

theorem dictLookup_dictRemove_ne (d : List (String × α)) (k' k : String)
    (h : k' ≠ k) : dictLookup (dictRemove d k') k = dictLookup d k := by
  induction d with
  | nil => simp [dictRemove]
  | cons hd tl ih =>
      obtain ⟨k₀, v₀⟩ := hd
      by_cases hk : k₀ = k'
      · subst hk
        simp [dictRemove, dictLookup, h]
      · by_cases hk2 : k₀ = k
        · simp [dictRemove, dictLookup, hk, hk2, Ne.symm h]
        · simp [dictRemove, dictLookup, hk, hk2, ih]

theorem dictContains_eq_isSome (d : List (String × α)) (k : String) :
    dictContains d k = (dictLookup d k).isSome := by
  induction d with
  | nil => simp [dictContains, dictLookup]
  | cons hd tl ih =>
      obtain ⟨k₀, v₀⟩ := hd
      by_cases hk : k₀ = k
      · simp [dictContains, dictLookup, hk]
      · simp [dictContains, dictLookup, hk, ih]

theorem mem_dictRemove (d : List (String × α)) (k : String) (kv : String × α)
    (h : kv ∈ dictRemove d k) : kv ∈ d := by
  induction d with
  | nil => simp [dictRemove] at h
  | cons hd tl ih =>
      obtain ⟨k₀, v₀⟩ := hd
      by_cases hk : k₀ = k
      · simp only [dictRemove, hk, if_pos rfl] at h
        exact List.mem_cons_of_mem _ h
      · simp only [dictRemove, if_neg hk] at h
        rcases List.mem_cons.mp h with h | h
        · exact h ▸ List.mem_cons_self _ _
        · exact List.mem_cons_of_mem _ (ih h)

theorem mem_dictInsert (d : List (String × α)) (k : String) (v : α)
    (kv : String × α) (h : kv ∈ dictInsert d k v) : kv = (k, v) ∨ kv ∈ d := by
  induction d with
  | nil => simpa [dictInsert] using h
  | cons hd tl ih =>
      obtain ⟨k₀, v₀⟩ := hd
      by_cases hk : k₀ = k
      · simp only [dictInsert, hk, if_pos rfl] at h
        rcases List.mem_cons.mp h with h | h
        · exact Or.inl h
        · exact Or.inr (List.mem_cons_of_mem _ h)
      · simp only [dictInsert, if_neg hk] at h
        rcases List.mem_cons.mp h with h | h
        · exact Or.inr (h ▸ List.mem_cons_self _ _)
        · rcases ih h with h | h
          · exact Or.inl h
          · exact Or.inr (List.mem_cons_of_mem _ h)

theorem dictRemove_sublist (d : List (String × α)) (k : String) :
    (dictRemove d k).Sublist d := by
  induction d with
  | nil => simp [dictRemove]
  | cons hd tl ih =>
      obtain ⟨k₀, v₀⟩ := hd
      by_cases hk : k₀ = k
      · simp only [dictRemove, hk, if_pos rfl]
        exact (List.Sublist.refl tl).cons _
      · simp only [dictRemove, if_neg hk]
        exact List.Sublist.cons₂ _ ih

theorem key_not_mem_dictRemove (d : List (String × α)) (k : String)
    (hnd : (d.map Prod.fst).Nodup) (kv : String × α)
    (h : kv ∈ dictRemove d k) : kv.1 ≠ k := by
  induction d with
  | nil => simp [dictRemove] at h
  | cons hd tl ih =>
      obtain ⟨k₀, v₀⟩ := hd
      simp only [List.map_cons, List.nodup_cons] at hnd
      by_cases hk : k₀ = k
      · subst hk
        simp only [dictRemove, if_pos rfl] at h
        intro hcontra
        exact hnd.1 (hcontra ▸ List.mem_map_of_mem Prod.fst h)
      · simp only [dictRemove, if_neg hk] at h
        rcases List.mem_cons.mp h with h | h
        · subst h
          exact hk
        · exact ih hnd.2 h

/-! ## C6: key/value folding keeps the last occurrence -/

/-- The value of the last record in the list that carries the given key
(and some value), stated directly from the spec's "keeps the last
occurrence for a duplicate key". -/
def lastValueFor : List KVItem → String → Option String
  | [], _ => none
  | item :: rest, k =>
      match lastValueFor rest k with
      | some v => some v
      | none =>
          match item.key, item.value with
          | some k', some v => if k' = k then some v else none
          | _, _ => none

theorem fold_lookup_aux (l : List KVItem) (acc : List (String × String))
    (k : String) :
    dictLookup
      (l.foldl
        (fun output_dict item =>
          match item.key, item.value with
          | some k, some v => dictInsert output_dict k v
          | _, _ => output_dict)
        acc) k =
      match lastValueFor l k with
      | some v => some v
      | none => dictLookup acc k := by
  induction l generalizing acc with
  | nil => simp [lastValueFor]
  | cons item rest ih =>
      rw [List.foldl_cons, ih]
      rcases hrest : lastValueFor rest k with _ | v
      · rcases hkey : item.key with _ | k'
        · simp [lastValueFor, hrest, hkey]
        · rcases hval : item.value with _ | v'
          · simp [lastValueFor, hrest, hkey, hval]
          · by_cases hk : k' = k
            · subst hk
              simp [lastValueFor, hrest, hkey, hval,
                dictLookup_dictInsert_self]
            · simp [lastValueFor, hrest, hkey, hval, hk,
                dictLookup_dictInsert_ne _ _ _ _ hk]
      · rcases hkey : item.key with _ | k'
        · simp [lastValueFor, hrest, hkey]
        · rcases hval : item.value with _ | v'
          · simp [lastValueFor, hrest, hkey, hval]
          · simp [lastValueFor, hrest, hkey, hval]

/-- C6: folding a `{key, value}` record list keeps, for every key, the
value of its last occurrence (`list_of_dicts_to_dict`), and in
particular folding `[{key:"a",value:"1"},{key:"a",value:"2"}]` yields
the dict `{"a":"2"}`. -/
theorem C6_fold_last_occurrence_wins :
    (∀ (l : List KVItem) (k : String),
        dictLookup (list_of_dicts_to_dict l) k = lastValueFor l k) ∧
      list_of_dicts_to_dict
          [⟨some "a", some "1"⟩, ⟨some "a", some "2"⟩] = [("a", "2")] := by
  constructor
  · intro l k
    rw [list_of_dicts_to_dict, fold_lookup_aux]
    rcases lastValueFor l k with _ | v <;> simp [dictLookup]
  · rfl

/-! ## C7: transaction parsing tolerates absent UUID keys -/

theorem ensure_key_lookup_self (d : List (String × Json)) (k : String) :
    dictLookup (if dictContains d k then d else dictInsert d k .null) k =
      some ((dictLookup d k).getD .null) := by
  cases h : dictLookup d k with
  | none =>
      rw [if_neg (by rw [dictContains_eq_isSome, h]; exact fun hc => Bool.noConfusion hc)]
      rw [dictLookup_dictInsert_self]
      rfl
  | some v =>
      rw [if_pos (by rw [dictContains_eq_isSome, h]; rfl)]
      rw [h]
      rfl

theorem ensure_key_lookup_ne (d : List (String × Json)) (k k' : String)
    (h : k ≠ k') :
    dictLookup (if dictContains d k then d else dictInsert d k .null) k' =
      dictLookup d k' := by
  by_cases hc : dictContains d k = true
  · rw [if_pos hc]
  · rw [if_neg hc, dictLookup_dictInsert_ne _ _ _ _ h]

theorem mem_ensure_key (d : List (String × Json)) (k : String)
    (kv : String × Json)
    (h : kv ∈ (if dictContains d k then d else dictInsert d k .null)) :
    kv = (k, Json.null) ∨ kv ∈ d := by
  by_cases hc : dictContains d k = true
  · rw [if_pos hc] at h
    exact Or.inr h
  · rw [if_neg hc] at h
    exact mem_dictInsert _ _ _ _ h

/-- The parsed UUID field produced from the raw state of a
`routeResponseUUID` / `routeUUID` key: an absent key is synthesized to
null, a null value stays null, a string value is kept, and any other
JSON value is not accepted. -/
def uuidField : Option Json → Option (Option String)
  | none => some none
  | some .null => some none
  | some (.str s) => some (some s)
  | some _ => none

/-- C7: for every transaction log entry (a JSON object, unique keys) whose
`request` and `response` sub-records are present and parse, whose
`proxied` flag is present, and whose `routeResponseUUID` / `routeUUID`
keys are each either absent, null, or a string — any combination, in
particular either one or both absent — parsing succeeds, and every
absent UUID key yields a null field rather than a missing-key error. -/
theorem C7_transaction_parse_absent_uuids
    (fields : List (String × Json)) (reqJ respJ : Json) (p : Bool)
    (req : Request) (resp : Response) (rr ru : Option String)
    (hnd : (fields.map Prod.fst).Nodup)
    (hreq : dictLookup fields "request" = some reqJ)
    (hresp : dictLookup fields "response" = some respJ)
    (hreqok : Request.from_log_entry reqJ = .ok req)
    (hrespok : Response.from_log_entry respJ = .ok resp)
    (hprox : dictLookup fields "proxied" = some (.bool p))
    (hrr : uuidField (dictLookup fields "routeResponseUUID") = some rr)
    (hru : uuidField (dictLookup fields "routeUUID") = some ru)
    (hkeys : ∀ kv ∈ fields,
      kv.1 = "request" ∨ kv.1 = "response" ∨ kv.1 = "proxied" ∨
      kv.1 = "routeResponseUUID" ∨ kv.1 = "routeUUID") :
    Transaction.from_log_entry (.obj fields) = .ok ⟨p, req, resp, rr, ru⟩ ∧
      (dictLookup fields "routeResponseUUID" = none → rr = none) ∧
      (dictLookup fields "routeUUID" = none → ru = none) := by
  have hresp1 : dictLookup (dictRemove fields "request") "response" = some respJ := by
    rw [dictLookup_dictRemove_ne _ _ _ (by decide), hresp]
  have hprox2 :
      dictLookup (dictRemove (dictRemove fields "request") "response") "proxied" =
        some (.bool p) := by
    rw [dictLookup_dictRemove_ne _ _ _ (by decide),
      dictLookup_dictRemove_ne _ _ _ (by decide), hprox]
  have hrr2 :
      dictLookup (dictRemove (dictRemove fields "request") "response")
        "routeResponseUUID" = dictLookup fields "routeResponseUUID" := by
    rw [dictLookup_dictRemove_ne _ _ _ (by decide),
      dictLookup_dictRemove_ne _ _ _ (by decide)]
  have hru2 :
      dictLookup (dictRemove (dictRemove fields "request") "response")
        "routeUUID" = dictLookup fields "routeUUID" := by
    rw [dictLookup_dictRemove_ne _ _ _ (by decide),
      dictLookup_dictRemove_ne _ _ _ (by decide)]
  set fields2 := dictRemove (dictRemove fields "request") "response" with hfields2
  set fields3 := if dictContains fields2 "routeResponseUUID" then fields2
    else dictInsert fields2 "routeResponseUUID" Json.null with hfields3
  set fields4 := if dictContains fields3 "routeUUID" then fields3
    else dictInsert fields3 "routeUUID" Json.null with hfields4
  have hprox4 : dictLookup fields4 "proxied" = some (.bool p) := by
    rw [hfields4, ensure_key_lookup_ne _ _ _ (by decide), hfields3,
      ensure_key_lookup_ne _ _ _ (by decide), hprox2]
  have hrr4 : dictLookup fields4 "routeResponseUUID" =
      some ((dictLookup fields "routeResponseUUID").getD .null) := by
    rw [hfields4, ensure_key_lookup_ne _ _ _ (by decide), hfields3,
      ensure_key_lookup_self, hrr2]
  have hru4 : dictLookup fields4 "routeUUID" =
      some ((dictLookup fields "routeUUID").getD .null) := by
    rw [hfields4, ensure_key_lookup_self, hfields3,
      ensure_key_lookup_ne _ _ _ (by decide), hru2]
  have hproxB : getBool fields4 "proxied" = .ok p := by
    rw [getBool, hprox4]
  have hrrOpt : getOptStr fields4 "routeResponseUUID" = .ok rr := by
    rw [getOptStr, hrr4]
    cases hstate : dictLookup fields "routeResponseUUID" with
    | none =>
        rw [hstate] at hrr
        simp only [uuidField, Option.some.injEq] at hrr
        rw [← hrr]
        rfl
    | some vrr =>
        rw [hstate] at hrr
        cases vrr with
        | null =>
            simp only [uuidField, Option.some.injEq] at hrr
            rw [← hrr]
            rfl
        | str s =>
            simp only [uuidField, Option.some.injEq] at hrr
            rw [← hrr]
            rfl
        | bool b => simp [uuidField] at hrr
        | num n => simp [uuidField] at hrr
        | arr elems => simp [uuidField] at hrr
        | obj fs => simp [uuidField] at hrr
  have hruOpt : getOptStr fields4 "routeUUID" = .ok ru := by
    rw [getOptStr, hru4]
    cases hstate : dictLookup fields "routeUUID" with
    | none =>
        rw [hstate] at hru
        simp only [uuidField, Option.some.injEq] at hru
        rw [← hru]
        rfl
    | some vru =>
        rw [hstate] at hru
        cases vru with
        | null =>
            simp only [uuidField, Option.some.injEq] at hru
            rw [← hru]
            rfl
        | str s =>
            simp only [uuidField, Option.some.injEq] at hru
            rw [← hru]
            rfl
        | bool b => simp [uuidField] at hru
        | num n => simp [uuidField] at hru
        | arr elems => simp [uuidField] at hru
        | obj fs => simp [uuidField] at hru
  have hall : fields4.all (fun kv =>
      kv.1 = "proxied" ∨ kv.1 = "routeResponseUUID" ∨ kv.1 = "routeUUID") = true := by
    rw [List.all_eq_true]
    intro kv hkv
    rw [hfields4] at hkv
    rcases mem_ensure_key _ _ _ hkv with h4 | h4
    · subst h4
      simp
    · rw [hfields3] at h4
      rcases mem_ensure_key _ _ _ h4 with h3 | h3
      · subst h3
        simp
      · rw [hfields2] at h3
        have hne_resp : kv.1 ≠ "response" :=
          key_not_mem_dictRemove _ _
            ((hnd.sublist (List.Sublist.map Prod.fst
              (dictRemove_sublist fields "request")) : _)) _ h3
        have hmem1 : kv ∈ dictRemove fields "request" := mem_dictRemove _ _ _ h3
        have hne_req : kv.1 ≠ "request" := key_not_mem_dictRemove _ _ hnd _ hmem1
        have hmem0 : kv ∈ fields := mem_dictRemove _ _ _ hmem1
        rcases hkeys kv hmem0 with h | h | h | h | h
        · exact absurd h hne_req
        · exact absurd h hne_resp
        · simp [h]
        · simp [h]
        · simp [h]
  refine ⟨?_, ?_, ?_⟩
  · simp only [Transaction.from_log_entry, bind, Except.bind, pure, Except.pure,
      hreq, hreqok, hresp1, hrespok]
    simp only [← hfields2]
    simp only [← hfields3]
    simp only [← hfields4]
    simp only [hproxB, hrrOpt, hruOpt, hall, if_true]
  · intro h
    rw [h] at hrr
    simp only [uuidField, Option.some.injEq] at hrr
    exact hrr.symm
  · intro h
    rw [h] at hru
    simp only [uuidField, Option.some.injEq] at hru
    exact hru.symm

/-- The request sub-record JSON used by the C7 witness. -/
def c7ReqJson : Json :=
  .obj [("body", .str ""), ("headers", .arr []), ("method", .str "GET"),
        ("params", .arr []), ("query", .str ""), ("queryParams", .arr []),
        ("route", .str "/hello"), ("urlPath", .str "/hello")]

/-- The response sub-record JSON used by the C7 witness. -/
def c7RespJson : Json :=
  .obj [("body", .str "ok"), ("headers", .arr []), ("statusCode", .num 200)]

/-- Witness for C7: a concrete entry with both UUID keys absent parses
with both fields null, and one with only `routeResponseUUID` absent (and
`routeUUID` a string) parses with just that field null. -/
theorem C7_witness :
    (Transaction.from_log_entry (.obj
      [("proxied", .bool true), ("request", c7ReqJson),
       ("response", c7RespJson)]) =
      .ok ⟨true, ⟨"", [], "GET", [], "", [], "/hello", "/hello"⟩,
           ⟨"ok", [], 200, none⟩, none, none⟩) ∧
      (Transaction.from_log_entry (.obj
        [("proxied", .bool false), ("routeUUID", .str "ru"),
         ("request", c7ReqJson), ("response", c7RespJson)]) =
        .ok ⟨false, ⟨"", [], "GET", [], "", [], "/hello", "/hello"⟩,
             ⟨"ok", [], 200, none⟩, none, some "ru"⟩) :=
  ⟨(C7_transaction_parse_absent_uuids
      [("proxied", .bool true), ("request", c7ReqJson),
       ("response", c7RespJson)]
      c7ReqJson c7RespJson true
      ⟨"", [], "GET", [], "", [], "/hello", "/hello"⟩
      ⟨"ok", [], 200, none⟩ none none
      (by decide) rfl rfl rfl rfl rfl rfl rfl (by decide)).1,
   (C7_transaction_parse_absent_uuids
      [("proxied", .bool false), ("routeUUID", .str "ru"),
       ("request", c7ReqJson), ("response", c7RespJson)]
      c7ReqJson c7RespJson false
      ⟨"", [], "GET", [], "", [], "/hello", "/hello"⟩
      ⟨"ok", [], 200, none⟩ none (some "ru")
      (by decide) rfl rfl rfl rfl rfl rfl rfl (by decide)).1⟩

/-! ## Sample data -/

/-- A concrete request (route `/hello`). -/
def sampleRequest : Request :=
  ⟨"", [], "GET", [], "", [], "/hello", "/hello"⟩

/-- A second concrete request, distinct from `sampleRequest`. -/
def sampleRequest2 : Request :=
  ⟨"", [], "POST", [], "", [], "/world", "/world"⟩

/-! ## C9: the ordered-match loop is not total on an empty expected list -/

/-- C9: `assert_has_calls([], any_order=False)` succeeds vacuously on an
empty history, but on any non-empty history the first loop iteration
evaluates `requests[0]` on the empty expected list and raises
`IndexError`. -/
theorem C9_empty_expected_not_total (H : List Request) :
    (H = [] → assert_has_calls H [] false = .ok ()) ∧
      (H ≠ [] → assert_has_calls H [] false = .error .indexError) := by
  constructor
  · intro h
    subst h
    rfl
  · intro h
    match H with
    | [] => exact absurd rfl h
    | a :: rest => rfl

/-- Witness for C9 at concrete histories. -/
theorem C9_witness :
    assert_has_calls [] [] false = .ok () ∧
      assert_has_calls [sampleRequest] [] false = .error .indexError :=
  ⟨(C9_empty_expected_not_total []).1 rfl,
   (C9_empty_expected_not_total [sampleRequest]).2 (by simp)⟩

/-! ## C5: exact-match counting assertions -/

theorem count_eq_one_split {α : Type} [DecidableEq α] (a : α) (l : List α) :
    l.count a = 1 ↔ ∃ l₁ l₂, l = l₁ ++ a :: l₂ ∧ a ∉ l₁ ∧ a ∉ l₂ := by
  constructor
  · intro h
    have hm : a ∈ l := List.count_pos_iff.mp (by omega)
    obtain ⟨l₁, l₂, rfl⟩ := List.append_of_mem hm
    refine ⟨l₁, l₂, rfl, ?_, ?_⟩
    · rw [List.count_append, List.count_cons_self] at h
      exact List.count_eq_zero.mp (by omega)
    · rw [List.count_append, List.count_cons_self] at h
      exact List.count_eq_zero.mp (by omega)
  · rintro ⟨l₁, l₂, rfl, h₁, h₂⟩
    rw [List.count_append, List.count_cons_self, List.count_eq_zero.mpr h₁,
      List.count_eq_zero.mpr h₂]

/-- C5: `assert_called_with(r)` succeeds iff at least one structurally
equal request appears anywhere in the history (not only as the most
recent call), and `assert_called_once_with(r)` succeeds iff exactly one
position of the history holds a structurally equal request. -/
theorem C5_called_with_counts (H : List Request) (r : Request) :
    (assert_called_with H r = .ok () ↔ r ∈ H) ∧
      (assert_called_once_with H r = .ok () ↔
        ∃ l₁ l₂, H = l₁ ++ r :: l₂ ∧ r ∉ l₁ ∧ r ∉ l₂) := by
  constructor
  · rw [assert_called_with, get_no_of_calls_with_request]
    by_cases hm : r ∈ H
    · simp [List.count_pos_iff.mpr hm, hm]
    · simp [List.count_eq_zero.mpr hm, hm]
  · rw [assert_called_once_with, get_no_of_calls_with_request]
    rw [← count_eq_one_split]
    by_cases hc : H.count r = 1
    · simp [hc]
    · simp [hc]

/-! ## C2: unordered multiset matching -/

theorem any_order_ok_iff (E : List Request) :
    ∀ H : List Request,
      (has_calls_any_order H E = .ok () ↔ ∀ r, E.count r ≤ H.count r) := by
  induction E with
  | nil => intro H; simp [has_calls_any_order]
  | cons e rest ih =>
      intro H
      by_cases hm : e ∈ H
      · rw [has_calls_any_order, if_pos hm, ih (H.erase e)]
        constructor
        · intro h r
          have hr := h r
          by_cases hre : r = e
          · subst hre
            have hpos : 0 < H.count r := List.count_pos_iff.mpr hm
            rw [List.count_erase_self] at hr
            rw [List.count_cons_self]
            omega
          · rw [List.count_erase_of_ne hre] at hr
            rw [List.count_cons_of_ne hre]
            omega
        · intro h r
          have hr := h r
          by_cases hre : r = e
          · subst hre
            rw [List.count_cons_self] at hr
            rw [List.count_erase_self]
            omega
          · rw [List.count_cons_of_ne hre] at hr
            rw [List.count_erase_of_ne hre]
            omega
      · rw [has_calls_any_order, if_neg hm]
        constructor
        · intro h
          exact absurd h (by simp)
        · intro h
          have := h e
          rw [List.count_cons_self, List.count_eq_zero.mpr hm] at this
          omega

theorem any_order_error_shape (E : List Request) :
    ∀ H : List Request, has_calls_any_order H E ≠ .ok () →
      ∃ r, r ∈ E ∧
        has_calls_any_order H E = .error (.assertFailed (.callNotFound r)) := by
  induction E with
  | nil => intro H h; exact absurd rfl h
  | cons e rest ih =>
      intro H h
      by_cases hm : e ∈ H
      · rw [has_calls_any_order, if_pos hm] at h ⊢
        obtain ⟨r, hr, heq⟩ := ih (H.erase e) h
        exact ⟨r, List.mem_cons_of_mem _ hr, heq⟩
      · refine ⟨e, List.mem_cons_self _ _, ?_⟩
        rw [has_calls_any_order, if_neg hm]

/-- C2: `assert_has_calls(E, any_order=True)` succeeds iff the expected
requests form a sub-multiset of the recorded history (each structural
value needed no more often than it was recorded, so one recorded
occurrence never satisfies two expected entries); any failure is raised
at an expected request as an assertion error naming it. -/
theorem C2_any_order_multiset (H E : List Request) :
    (assert_has_calls H E true = .ok () ↔ ∀ r, E.count r ≤ H.count r) ∧
      (assert_has_calls H E true ≠ .ok () →
        ∃ r, r ∈ E ∧
          assert_has_calls H E true =
            .error (.assertFailed (.callNotFound r))) := by
  constructor
  · rw [assert_has_calls, if_pos rfl]
    exact any_order_ok_iff E H
  · rw [assert_has_calls, if_pos rfl]
    exact any_order_error_shape E H

/-- Witness for C2: on history `[r]`, expecting `[r, r]` fails because the
single occurrence cannot satisfy both entries. -/
theorem C2_witness :
    ∃ r, r ∈ [sampleRequest, sampleRequest] ∧
      assert_has_calls [sampleRequest] [sampleRequest, sampleRequest] true =
        .error (.assertFailed (.callNotFound r)) :=
  (C2_any_order_multiset [sampleRequest] [sampleRequest, sampleRequest]).2
    (fun h => Except.noConfusion h)

/-! ## C1: ordered greedy-cursor matching -/

/-- The expected requests still unmatched after running the single
left-to-right greedy cursor over the actual sequence. -/
def greedyRemaining : List Request → List Request → List Request
  | es, [] => es
  | [], _ :: _ => []
  | e :: es, a :: as =>
      if e = a then greedyRemaining es as else greedyRemaining (e :: es) as

theorem greedyRemaining_eq_nil_iff (as : List Request) :
    ∀ es : List Request, (greedyRemaining es as = [] ↔ es.Sublist as) := by
  induction as with
  | nil =>
      intro es
      cases es with
      | nil => simp [greedyRemaining]
      | cons e es => simp [greedyRemaining]
  | cons a as ih =>
      intro es
      cases es with
      | nil =>
          simp [greedyRemaining, List.nil_sublist]
      | cons e es =>
          by_cases he : e = a
          · subst he
            rw [greedyRemaining, if_pos rfl, ih es]
            exact List.cons_sublist_cons.symm
          · rw [greedyRemaining, if_neg he, ih (e :: es)]
            constructor
            · intro h
              exact h.cons a
            · intro h
              cases h with
              | cons _ h => exact h
              | cons₂ _ h => exact absurd rfl he

theorem greedyRemaining_length_le (as : List Request) :
    ∀ es : List Request, (greedyRemaining es as).length ≤ es.length := by
  induction as with
  | nil => intro es; cases es <;> simp [greedyRemaining]
  | cons a as ih =>
      intro es
      cases es with
      | nil => simp [greedyRemaining]
      | cons e es =>
          by_cases he : e = a
          · rw [greedyRemaining, if_pos he]
            exact le_trans (ih es) (by simp)
          · rw [greedyRemaining, if_neg he]
            exact ih (e :: es)

theorem ordered_loop_eq_greedy (E : List Request) :
    ∀ (as : List Request) (c : Nat), c < E.length →
      has_calls_ordered_loop E as c =
        .ok (E.length - (greedyRemaining (E.drop c) as).length) := by
  intro as
  induction as with
  | nil =>
      intro c hc
      rw [has_calls_ordered_loop, greedyRemaining]
      rw [List.length_drop]
      congr 1
      omega
  | cons a rest ih =>
      intro c hc
      rw [has_calls_ordered_loop]
      rw [List.get?_eq_get hc]
      dsimp only
      have hdrop : E.drop c = E.get ⟨c, hc⟩ :: E.drop (c + 1) := by
        rw [List.drop_eq_getElem_cons hc]
        rfl
      by_cases he : E.get ⟨c, hc⟩ = a
      · rw [if_pos he]
        by_cases hlen : c + 1 = E.length
        · rw [if_pos hlen]
          have hnil : E.drop (c + 1) = [] := by
            rw [hlen]
            exact List.drop_length E
          rw [hdrop, hnil, greedyRemaining, if_pos he]
          have : greedyRemaining [] rest = [] := by
            cases rest <;> rfl
          rw [this]
          simp
          omega
        · rw [if_neg hlen]
          rw [ih (c + 1) (by omega)]
          rw [hdrop, greedyRemaining, if_pos he]
      · rw [if_neg he]
        rw [ih c hc]
        conv_rhs => rw [hdrop, greedyRemaining, if_neg he, ← hdrop]

/-- C1 (amended): for every non-empty expected list `E`,
`assert_has_calls(E, any_order=False)` succeeds iff `E` occurs in the
recorded history as an in-order (not necessarily contiguous)
subsequence — the condition the left-to-right greedy cursor decides —
and otherwise raises the assertion error carrying both lists.  (For an
empty `E` the method instead indexes out of bounds on any non-empty
history.) -/
theorem C1_ordered_subsequence (H E : List Request) (hne : E ≠ []) :
    (assert_has_calls H E false = .ok () ↔ E.Sublist H) ∧
      (assert_has_calls H E false =
          .error (.assertFailed (.callsNotInOrder E H)) ↔ ¬E.Sublist H) := by
  have hpos : 0 < E.length := List.length_pos.mpr hne
  have hlen := greedyRemaining_length_le H E
  have hbridge := ordered_loop_eq_greedy E H 0 hpos
  rw [List.drop_zero] at hbridge
  have hnil := greedyRemaining_eq_nil_iff H E
  rw [assert_has_calls, if_neg (by simp)]
  rw [hbridge]
  dsimp only
  by_cases hsub : E.Sublist H
  · rw [hnil.mpr hsub]
    simp only [List.length_nil, Nat.sub_zero, if_pos rfl]
    constructor
    · exact ⟨fun _ => hsub, fun _ => rfl⟩
    · exact ⟨fun h => Except.noConfusion h, fun h => absurd hsub h⟩
  · have hne2 : (greedyRemaining E H).length ≠ 0 := by
      intro h
      exact hsub (hnil.mp (List.length_eq_zero.mp h))
    rw [if_neg (by omega)]
    constructor
    · exact ⟨fun h => Except.noConfusion h, fun h => absurd h hsub⟩
    · exact ⟨fun _ => hsub, fun _ => rfl⟩

/-- Counterexample for C1 as stated: with an empty expected list the
greedy cursor is already at the end of `E`, so the claim predicts
success on every history, but on the non-empty history `[sampleRequest]`
the code raises `IndexError` (not success, and not an assertion error). -/
theorem C1_counterexample :
    ([] : List Request).Sublist [sampleRequest] ∧
      assert_has_calls [sampleRequest] [] false = .error .indexError :=
  ⟨List.nil_sublist _, rfl⟩

/-- Witness for C1 at a concrete non-empty expected list: `[r2]` is an
in-order subsequence of `[r1, r2]`, and the assertion succeeds. -/
theorem C1_witness :
    assert_has_calls [sampleRequest, sampleRequest2] [sampleRequest2] false =
      .ok () :=
  (C1_ordered_subsequence [sampleRequest, sampleRequest2] [sampleRequest2]
    (by simp)).1.mpr ((List.Sublist.refl _).cons _)

/-! ## C3: a malformed log line is not recovered -/

/-- A well-formed readiness log line. -/
def readyLineJson : Json :=
  .obj [("level", .str "info"),
        ("message", .str "Server started on port 3000"),
        ("timestamp", .str "t0")]

/-- The `LogMessage` parsed from `readyLineJson`. -/
def readyLogMessage : LogMessage :=
  ⟨"info", "Server started on port 3000", "t0", none, none⟩

theorem stream_logs_stdout_append (rest : List RawLine) :
    ∀ (pre : List RawLine) (st st' : ServerState),
      stream_logs_stdout st false pre = .ok st' →
      stream_logs_stdout st false (pre ++ rest) =
        stream_logs_stdout st' false rest := by
  intro pre
  induction pre with
  | nil =>
      intro st st' h
      cases h
      rfl
  | cons line tl ih =>
      intro st st' h
      simp only [stream_logs_stdout, Bool.false_eq_true, if_false, bind,
        Except.bind, List.cons_append] at h ⊢
      cases hline : process_line st line with
      | error e =>
          rw [hline] at h
          exact Except.noConfusion h
      | ok st₀ =>
          rw [hline] at h
          exact ih st₀ st' h

/-- C3 (amended): a line that fails to parse as JSON makes `json.loads`
raise inside `process_line`; the streaming loop has no handler, so the
parse error escapes and terminates the background log-processing task —
every line after the malformed one is left unprocessed. -/
theorem C3_malformed_line_kills_task (st st' : ServerState)
    (pre rest : List RawLine)
    (h : stream_logs_stdout st false pre = .ok st') :
    stream_logs_stdout st false (pre ++ (none : RawLine) :: rest) =
      .error .jsonDecodeError := by
  rw [stream_logs_stdout_append ((none : RawLine) :: rest) pre st st' h]
  rfl

/-- Counterexample for C3 as stated: the claim predicts that the malformed
middle line is skipped and processing continues, but the whole stream run
aborts with the JSON decode error — even though the following line is
itself processable. -/
theorem C3_counterexample :
    stream_logs_stdout ⟨[], []⟩ false
        [some readyLineJson, (none : RawLine), some readyLineJson] =
      .error .jsonDecodeError ∧
      process_line ⟨[readyLogMessage], ["ready"]⟩ (some readyLineJson) =
        .ok ⟨[readyLogMessage, readyLogMessage], ["ready", "ready"]⟩ :=
  ⟨rfl, rfl⟩

/-- Witness for C3 (amended) at a concrete stream. -/
theorem C3_witness :
    stream_logs_stdout ⟨[], []⟩ false
        ([some readyLineJson] ++ (none : RawLine) :: [some readyLineJson]) =
      .error .jsonDecodeError :=
  C3_malformed_line_kills_task ⟨[], []⟩ ⟨[readyLogMessage], ["ready"]⟩
    [some readyLineJson] [some readyLineJson] rfl

/-! ## C10: route event labels carry the leading slash, waits add one -/

/-- C10: processing a transaction-bearing log line enqueues the
transaction's `request.route` string verbatim, while
`wait_for_route_hit(route)` waits for the label `"/" + route`; so when
the recorded route starts with `"/"` (say `route = "/" ++ R`), the wait
label equals the emitted label exactly when the caller passes `R` — the
route without its leading slash — and passing the route itself produces
the label `"//" ++ R`, which never equals it. -/
theorem C10_route_hit_slash_mismatch
    (st : ServerState) (j : Json) (lm : LogMessage) (t : Transaction)
    (hparse : LogMessage.from_log_entry j = .ok lm)
    (htx : lm.transaction = some t) :
    (process_line st (some j) = .ok
        ⟨st.log_messages ++ [lm],
         (st.event_queue ++ [t.request.route]) ++
           (if strContains lm.message server_start_msg then ["ready"]
            else [])⟩) ∧
      (∀ (route : String) (start : Nat) (ticks : List WaitTick),
          wait_for_route_hit route start ticks =
            wait_for_event ("/" ++ route) none start ticks) ∧
      (∀ route R : String, t.request.route = "/" ++ R →
          (("/" ++ route = t.request.route) ↔ route = R)) ∧
      (∀ R : String, "/" ++ R ≠ R) := by
  refine ⟨?_, fun _ _ _ => rfl, ?_, ?_⟩
  · rw [process_line]
    dsimp only [bind, Except.bind, pure, Except.pure]
    rw [hparse]
    dsimp only
    rw [htx]
    by_cases hc : strContains lm.message server_start_msg = true
    · simp only [hc, if_true]
    · simp only [hc, if_false, Bool.false_eq_true, List.append_nil]
  · intro route R hroute
    rw [hroute]
    constructor
    · intro h
      have hd := congrArg String.data h
      rw [String.data_append, String.data_append] at hd
      exact String.ext (by simpa using hd)
    · intro h
      rw [h]
  · intro R h
    have hlen2 := congrArg String.length h
    rw [String.length_append] at hlen2
    have h1 : ("/" : String).length = 1 := rfl
    rw [h1] at hlen2
    omega

/-- A concrete transaction whose request route is `/hello`. -/
def sampleTransaction : Transaction :=
  ⟨false, sampleRequest, ⟨"ok", [], 200, none⟩, some "rr", some "ru"⟩

/-- A raw log line carrying `sampleTransaction`. -/
def txLineJson : Json :=
  .obj
    [("level", .str "info"), ("message", .str "Transaction recorded"),
     ("timestamp", .str "t1"),
     ("transaction", .obj
       [("proxied", .bool false),
        ("routeResponseUUID", .str "rr"), ("routeUUID", .str "ru"),
        ("request", .obj
          [("body", .str ""), ("headers", .arr []),
           ("method", .str "GET"), ("params", .arr []),
           ("query", .str ""), ("queryParams", .arr []),
           ("route", .str "/hello"), ("urlPath", .str "/hello")]),
        ("response", .obj
          [("body", .str "ok"), ("headers", .arr []),
           ("statusCode", .num 200)])])]

/-- The `LogMessage` parsed from `txLineJson`. -/
def txLogMessage : LogMessage :=
  ⟨"info", "Transaction recorded", "t1", none, some sampleTransaction⟩

/-- Witness for C10: the concrete transaction line for route `/hello`
enqueues the label `/hello`; `wait_for_route_hit("hello")` waits for
that label, while `wait_for_route_hit("/hello")` waits for `//hello`. -/
theorem C10_witness :
    (process_line ⟨[], []⟩ (some txLineJson) =
      .ok ⟨[txLogMessage], ["/hello"]⟩) ∧
      (("/" ++ "hello" = "/hello") ↔ "hello" = "hello") ∧
      "/" ++ "/hello" ≠ "/hello" := by
  have h := C10_route_hit_slash_mismatch ⟨[], []⟩ txLineJson txLogMessage
    sampleTransaction rfl rfl
  exact ⟨h.1, h.2.2.1 "hello" "hello" rfl, h.2.2.2 "/hello"⟩

/-! ## C4: event wait — discard non-matching, match, or time out -/

theorem wait_loop_matched_iff (expected : String) (T : Nat) :
    ∀ ticks : List WaitTick, (∀ t ∈ ticks, t.alive = true) →
      (wait_for_event_loop expected T ticks = some .matched ↔
        ∃ pre tick post, ticks = pre ++ tick :: post ∧ tick.now ≤ T ∧
          tick.dequeued = some expected ∧
          ∀ p ∈ pre, p.now ≤ T ∧ p.dequeued ≠ some expected) := by
  intro ticks
  induction ticks with
  | nil =>
      intro _
      constructor
      · intro h
        exact Option.noConfusion h
      · rintro ⟨pre, tick, post, heq, -⟩
        exact absurd heq (by cases pre <;> simp)
  | cons t rest ih =>
      intro halive
      have ht : t.alive = true := halive t (List.mem_cons_self _ _)
      have hrest : ∀ p ∈ rest, p.alive = true :=
        fun p hp => halive p (List.mem_cons_of_mem _ hp)
      rw [wait_for_event_loop]
      rw [if_neg (by rw [ht]; exact fun h => Bool.noConfusion h)]
      by_cases htime : T < t.now
      · rw [if_pos htime]
        constructor
        · intro h
          exact absurd h (by simp)
        · rintro ⟨pre, tick, post, heq, hle, hdq, hpre⟩
          cases pre with
          | nil =>
              rw [List.nil_append] at heq
              injection heq with h1 h2
              subst h1
              omega
          | cons p pre =>
              rw [List.cons_append] at heq
              injection heq with h1 h2
              subst h1
              have := (hpre t (List.mem_cons_self _ _)).1
              omega
      · rw [if_neg htime]
        by_cases hdq : t.dequeued = some expected
        · rw [if_pos hdq]
          constructor
          · intro _
            exact ⟨[], t, rest, rfl, by omega, hdq, by simp⟩
          · intro _
            rfl
        · rw [if_neg hdq]
          rw [ih hrest]
          constructor
          · rintro ⟨pre, tick, post, heq, hle, hdqt, hpre⟩
            refine ⟨t :: pre, tick, post, by rw [heq, List.cons_append],
              hle, hdqt, ?_⟩
            intro p hp
            rcases List.mem_cons.mp hp with hp | hp
            · subst hp
              exact ⟨by omega, hdq⟩
            · exact hpre p hp
          · rintro ⟨pre, tick, post, heq, hle, hdqt, hpre⟩
            cases pre with
            | nil =>
                rw [List.nil_append] at heq
                injection heq with h1 h2
                subst h1
                exact absurd hdqt hdq
            | cons p pre =>
                rw [List.cons_append] at heq
                injection heq with h1 h2
                subst h1
                subst h2
                exact ⟨pre, tick, post, rfl, hle, hdqt,
                  fun q hq => hpre q (List.mem_cons_of_mem _ hq)⟩

theorem wait_loop_timedOut_iff (expected : String) (T : Nat) :
    ∀ ticks : List WaitTick, (∀ t ∈ ticks, t.alive = true) →
      (wait_for_event_loop expected T ticks = some .timedOut ↔
        ∃ pre tick post, ticks = pre ++ tick :: post ∧ T < tick.now ∧
          ∀ p ∈ pre, p.now ≤ T ∧ p.dequeued ≠ some expected) := by
  intro ticks
  induction ticks with
  | nil =>
      intro _
      constructor
      · intro h
        exact Option.noConfusion h
      · rintro ⟨pre, tick, post, heq, -⟩
        exact absurd heq (by cases pre <;> simp)
  | cons t rest ih =>
      intro halive
      have ht : t.alive = true := halive t (List.mem_cons_self _ _)
      have hrest : ∀ p ∈ rest, p.alive = true :=
        fun p hp => halive p (List.mem_cons_of_mem _ hp)
      rw [wait_for_event_loop]
      rw [if_neg (by rw [ht]; exact fun h => Bool.noConfusion h)]
      by_cases htime : T < t.now
      · rw [if_pos htime]
        constructor
        · intro _
          exact ⟨[], t, rest, rfl, htime, by simp⟩
        · intro _
          rfl
      · rw [if_neg htime]
        by_cases hdq : t.dequeued = some expected
        · rw [if_pos hdq]
          constructor
          · intro h
            exact absurd h (by simp)
          · rintro ⟨pre, tick, post, heq, hlt, hpre⟩
            cases pre with
            | nil =>
                rw [List.nil_append] at heq
                injection heq with h1 h2
                subst h1
                omega
            | cons p pre =>
                rw [List.cons_append] at heq
                injection heq with h1 h2
                subst h1
                exact absurd hdq (hpre t (List.mem_cons_self _ _)).2
        · rw [if_neg hdq]
          rw [ih hrest]
          constructor
          · rintro ⟨pre, tick, post, heq, hlt, hpre⟩
            refine ⟨t :: pre, tick, post, by rw [heq, List.cons_append],
              hlt, ?_⟩
            intro p hp
            rcases List.mem_cons.mp hp with hp | hp
            · subst hp
              exact ⟨by omega, hdq⟩
            · exact hpre p hp
          · rintro ⟨pre, tick, post, heq, hlt, hpre⟩
            cases pre with
            | nil =>
                rw [List.nil_append] at heq
                injection heq with h1 h2
                subst h1
                omega
            | cons p pre =>
                rw [List.cons_append] at heq
                injection heq with h1 h2
                subst h1
                subst h2
                exact ⟨pre, tick, post, rfl, hlt,
                  fun q hq => hpre q (List.mem_cons_of_mem _ hq)⟩

/-- C4: while the background thread stays alive, `_wait_for_event`
returns normally exactly when some dequeued event matches the expected
label within the budget, every earlier dequeue being within budget and
non-matching (those events are consumed and dropped, never requeued);
it raises the timeout error exactly when the observed time first exceeds
`start_time + budget` before any matching label was dequeued; and the
default budget is `WAIT_TIMEOUT = 30` time units. -/
theorem C4_wait_for_event_characterization (expected : String)
    (timeout : Option Nat) (start_time : Nat) (ticks : List WaitTick)
    (halive : ∀ t ∈ ticks, t.alive = true) :
    (wait_for_event expected timeout start_time ticks = some .matched ↔
      ∃ pre tick post, ticks = pre ++ tick :: post ∧
        tick.now ≤ start_time + resolveWaitTimeout timeout ∧
        tick.dequeued = some expected ∧
        ∀ p ∈ pre, p.now ≤ start_time + resolveWaitTimeout timeout ∧
          p.dequeued ≠ some expected) ∧
    (wait_for_event expected timeout start_time ticks = some .timedOut ↔
      ∃ pre tick post, ticks = pre ++ tick :: post ∧
        start_time + resolveWaitTimeout timeout < tick.now ∧
        ∀ p ∈ pre, p.now ≤ start_time + resolveWaitTimeout timeout ∧
          p.dequeued ≠ some expected) ∧
    resolveWaitTimeout none = 30 :=
  ⟨wait_loop_matched_iff expected (start_time + resolveWaitTimeout timeout)
      ticks halive,
   wait_loop_timedOut_iff expected (start_time + resolveWaitTimeout timeout)
      ticks halive,
   rfl⟩

/-- Witness for C4: a waiter for `"ready"` drops an earlier `"/hello"`
event and returns on the matching dequeue within the default budget. -/
theorem C4_witness :
    wait_for_event "ready" none 0
        [⟨true, 1, some "/hello"⟩, ⟨true, 2, some "ready"⟩] =
      some .matched :=
  (C4_wait_for_event_characterization "ready" none 0
      [⟨true, 1, some "/hello"⟩, ⟨true, 2, some "ready"⟩]
      (by decide)).1.mpr
    ⟨[⟨true, 1, some "/hello"⟩], ⟨true, 2, some "ready"⟩, [], rfl,
     by decide, rfl, by decide⟩

/-! ## C8: failure payloads of the assertion primitives -/

/-- The result either passes or is the bare `assert` failure (no
diagnostic message at all). -/
def passesOrBareAssert (r : Except PyErr Unit) : Prop :=
  r = .ok () ∨ r = .error (.assertFailed .bare)

theorem props_ordered_loop_ok (calls : List (List (String × PropValue))) :
    ∀ (as : List Request) (c : Nat), c < calls.length →
      ∃ n, has_calls_with_properties_ordered_loop calls as c = .ok n := by
  intro as
  induction as with
  | nil =>
      intro c hc
      exact ⟨c, rfl⟩
  | cons a rest ih =>
      intro c hc
      rw [has_calls_with_properties_ordered_loop]
      rw [List.get?_eq_get hc]
      dsimp only
      by_cases hm : request_matches a (calls.get ⟨c, hc⟩) = true
      · rw [if_pos hm]
        by_cases hlen : c + 1 = calls.length
        · rw [if_pos hlen]
          exact ⟨c + 1, rfl⟩
        · rw [if_neg hlen]
          exact ih (c + 1) (by omega)
      · rw [if_neg hm]
        exact ih c hc

theorem props_any_order_error_shape (calls : List (List (String × PropValue))) :
    ∀ H : List Request,
      has_calls_with_properties_any_order H calls ≠ .ok () →
      ∃ c, c ∈ calls ∧
        has_calls_with_properties_any_order H calls =
          .error (.assertFailed (.propCallNotFound c)) := by
  induction calls with
  | nil => intro H h; exact absurd rfl h
  | cons call rest ih =>
      intro H h
      rw [has_calls_with_properties_any_order] at h ⊢
      cases hfind : H.find? (fun request => request_matches request call) with
      | some m =>
          rw [hfind] at h
          obtain ⟨c, hc, heq⟩ := ih (H.erase m) h
          exact ⟨c, List.mem_cons_of_mem _ hc, heq⟩
      | none =>
          exact ⟨call, List.mem_cons_self _ _, rfl⟩

/-- C8 (amended): every assertion primitive either passes or raises an
`AssertionError`, but only the ordered `assert_has_calls` /
`assert_has_calls_with_properties` failures carry a message naming both
the expected and the actual values; the `any_order` variants' messages
name only the unmatched expected entry, and all remaining primitives
(`assert_not_called`, `assert_called`, `assert_called_once`, the
`_with` and `_with_properties` counting forms) fail as bare `assert`
statements with no diagnostic message.  (The `has_calls` forms with an
empty expected list can raise `IndexError` instead, so they are stated
for non-empty expectations.) -/
theorem C8_assertion_failure_payloads (H : List Request) (r : Request)
    (E : List Request) (props : List (String × PropValue))
    (calls : List (List (String × PropValue))) :
    passesOrBareAssert (assert_not_called H) ∧
    passesOrBareAssert (assert_called H) ∧
    passesOrBareAssert (assert_called_once H) ∧
    passesOrBareAssert (assert_called_once_with H r) ∧
    passesOrBareAssert (assert_called_with H r) ∧
    passesOrBareAssert (assert_called_once_with_properties H props) ∧
    passesOrBareAssert (assert_called_with_properties H props) ∧
    (E ≠ [] → assert_has_calls H E false = .ok () ∨
      assert_has_calls H E false =
        .error (.assertFailed (.callsNotInOrder E H))) ∧
    (assert_has_calls H E true = .ok () ∨
      ∃ e, e ∈ E ∧ assert_has_calls H E true =
        .error (.assertFailed (.callNotFound e))) ∧
    (calls ≠ [] → assert_has_calls_with_properties H calls false = .ok () ∨
      assert_has_calls_with_properties H calls false =
        .error (.assertFailed (.propCallsNotInOrder calls H))) ∧
    (assert_has_calls_with_properties H calls true = .ok () ∨
      ∃ c, c ∈ calls ∧ assert_has_calls_with_properties H calls true =
        .error (.assertFailed (.propCallNotFound c))) ∧
    AssertMsg.carriesExpectedAndActual (.callsNotInOrder E H) = true ∧
    AssertMsg.carriesExpectedAndActual (.propCallsNotInOrder calls H) = true ∧
    AssertMsg.carriesExpectedAndActual .bare = false ∧
    AssertMsg.carriesExpectedAndActual (.callNotFound r) = false ∧
    AssertMsg.carriesExpectedAndActual (.propCallNotFound props) = false := by
  refine ⟨?_, ?_, ?_, ?_, ?_, ?_, ?_, ?_, ?_, ?_, ?_, rfl, rfl, rfl, rfl, rfl⟩
  · unfold passesOrBareAssert assert_not_called
    split
    · exact Or.inl rfl
    · exact Or.inr rfl
  · unfold passesOrBareAssert assert_called
    split
    · exact Or.inr rfl
    · exact Or.inl rfl
  · unfold passesOrBareAssert assert_called_once
    split
    · exact Or.inl rfl
    · exact Or.inr rfl
  · unfold passesOrBareAssert assert_called_once_with
    split
    · exact Or.inl rfl
    · exact Or.inr rfl
  · unfold passesOrBareAssert assert_called_with
    split
    · exact Or.inl rfl
    · exact Or.inr rfl
  · unfold passesOrBareAssert assert_called_once_with_properties
    split
    · exact Or.inl rfl
    · exact Or.inr rfl
  · unfold passesOrBareAssert assert_called_with_properties
    split
    · exact Or.inl rfl
    · exact Or.inr rfl
  · intro hne
    have hpos : 0 < E.length := List.length_pos.mpr hne
    have hbridge := ordered_loop_eq_greedy E H 0 hpos
    rw [List.drop_zero] at hbridge
    rw [assert_has_calls, if_neg (by simp), hbridge]
    dsimp only
    split
    · exact Or.inl rfl
    · exact Or.inr rfl
  · by_cases h : assert_has_calls H E true = .ok ()
    · exact Or.inl h
    · right
      rw [assert_has_calls, if_pos rfl] at h ⊢
      exact any_order_error_shape E H h
  · intro hne
    have hpos : 0 < calls.length := List.length_pos.mpr hne
    obtain ⟨n, hn⟩ := props_ordered_loop_ok calls H 0 hpos
    rw [assert_has_calls_with_properties, if_neg (by simp), hn]
    dsimp only
    split
    · exact Or.inl rfl
    · exact Or.inr rfl
  · by_cases h : assert_has_calls_with_properties H calls true = .ok ()
    · exact Or.inl h
    · right
      rw [assert_has_calls_with_properties, if_pos rfl] at h ⊢
      exact props_any_order_error_shape calls H h

/-- Counterexample for C8 as stated: `assert_not_called` on a non-empty
history fails with a bare `assert` — an `AssertionError` whose message
carries neither the expected nor the actual value. -/
theorem C8_counterexample :
    assert_not_called [sampleRequest] = .error (.assertFailed .bare) ∧
      AssertMsg.carriesExpectedAndActual .bare = false :=
  ⟨rfl, rfl⟩

/-- Witness for C8 (amended) at a concrete history and expectation. -/
theorem C8_witness :
    assert_has_calls [sampleRequest] [sampleRequest2] false = .ok () ∨
      assert_has_calls [sampleRequest] [sampleRequest2] false =
        .error (.assertFailed
          (.callsNotInOrder [sampleRequest2] [sampleRequest])) := by
  have h := C8_assertion_failure_payloads [sampleRequest] sampleRequest
    [sampleRequest2] [] [[]]
  exact h.2.2.2.2.2.2.2.1 (by simp)

end Mockoon
